import Mathlib

/-!
Verification of the nginx-hibernator backend (`backend/src/`): a shallow embedding
of the data model, the store (`database.rs`), the per-site controller
(`controller.rs`), the front-door request handler (`server.rs`) and the metrics
endpoint (`api.rs`), together with theorems settling the specification claims.

Modelling conventions:
* Timestamps are natural numbers (nanoseconds since epoch, as in the `states`
  table keys) unless noted; the metrics walk converts to signed milliseconds as
  the code does via `timestamp_millis`.
* The LMDB `states` table restricted to one site is modelled as a list of
  `(timestamp, state)` rows kept in ascending key order, which is exactly the
  iteration order of the underlying B-tree; `rev_range` iteration is `reverse`.
* A Rust panic (`unwrap`, `expect`, out-of-bounds index, arithmetic underflow in
  the loop bound) is modelled by returning `none` from an `Option`-valued
  function: `none` means the task dies with no result, no response and no write.
* Fallible operations (`anyhow::Result`) are `Except String`.
-/

namespace Hibernator

/-- Site lifecycle state, from `backend/src/controller.rs` (enum `SiteState`). -/
inductive SiteState
  | Unknown
  | Down
  | Up
  | Starting
deriving DecidableEq

/-- `SiteState::is_up`, from `backend/src/controller.rs`. -/
def SiteState.is_up : SiteState → Bool
  | .Up => true
  | _ => false

/-- Outcome tag stored with each connection, from `backend/src/server.rs`
(enum `ConnectionResult`). -/
inductive ConnectionResult
  | MissingHost
  | UnknownSite
  | InvalidUrl
  | Ignored
  | Unproxied
  | ProxySuccess
  | ProxyFailed
  | ProxyTimeout
  | ApiHandled
deriving DecidableEq

/-- A stored connection record, from `backend/src/server.rs`
(struct `ConnectionMetadata`). -/
structure ConnectionMetadata where
  request : List String
  result : ConnectionResult
  service : Option String
  is_browser : Bool
  real_ip : Option String
  method : String
  url : String
deriving DecidableEq

/-- Result of `SiteController::should_shutdown`, from `backend/src/controller.rs`
(enum `ShouldShutdown`). -/
inductive ShouldShutdown
  | Now
  | NotUntil (t : Nat)
deriving DecidableEq

/-!  ## The store (`backend/src/database.rs`)

The `states` table for a fixed site: rows `(timestamp_ns, state)` in ascending
key order (the B-tree key is `(service, big-endian timestamp)`, so a per-site
range scan is chronological).  -/

/-- Per-site slice of the `states` table, ascending timestamps. -/
abbrev StateHistory := List (Nat × SiteState)

/-- Key-ordered insert: the effect of `self.states.put` for a fixed site.
LMDB `put` overwrites an existing identical key. -/
def putState : StateHistory → Nat → SiteState → StateHistory
  | [], ts, s => [(ts, s)]
  | (t, v) :: rest, ts, s =>
    if ts < t then (ts, s) :: (t, v) :: rest
    else if ts = t then (ts, s) :: rest
    else (t, v) :: putState rest ts s

/-- `Database::update_state` (database.rs lines 334-346): unconditionally insert
a row keyed by the current time. -/
def update_state (hist : StateHistory) (now : Nat) (state : SiteState) : StateHistory :=
  putState hist now state

/-- `Database::try_update_state` (database.rs lines 350-382): inside one write
transaction, read the highest-key row for the site; if its state is in
`exclude_states`, return `false` with the table unchanged (the transaction is
dropped without commit); otherwise insert one row keyed by the current time and
return `true`. -/
def try_update_state (hist : StateHistory) (now : Nat) (new_state : SiteState)
    (exclude_states : List SiteState) : Bool × StateHistory :=
  match hist.getLast? with
  | some (_, current_state) =>
    if current_state ∈ exclude_states then (false, hist)
    else (true, putState hist now new_state)
  | none => (true, putState hist now new_state)

/-- Backwards walk of `Database::get_last_state` finding when the current state
run started (argument list is the remaining history, newest first). -/
def lastRunStart (current : SiteState) (start : Nat) : List (Nat × SiteState) → Nat
  | [] => start
  | (t, s) :: rest => if s = current then lastRunStart current t rest else start

/-- `Database::get_last_state` (database.rs lines 384-417): most recent state
together with the earliest timestamp of its uninterrupted run; error when the
site has no rows. -/
def get_last_state (hist : StateHistory) : Except String (SiteState × Nat) :=
  match hist.reverse with
  | [] => .error "No state found"
  | (t, s) :: rest => .ok (s, lastRunStart s t rest)

/-- Backwards scan of `Database::get_state_history_since`: keep rows until one
is older than `since`, which is reported clamped to `since`.  `since` is a
signed timestamp (`now - seconds` can be negative). -/
def historySinceRev (since : Int) : List (Nat × SiteState) → List (Int × SiteState)
  | [] => []
  | (t, s) :: rest =>
    if (t : Int) < since then [(since, s)]
    else ((t : Int), s) :: historySinceRev since rest

/-- `Database::get_state_history_since` (database.rs lines 262-289). -/
def get_state_history_since (hist : StateHistory) (since : Int) : List (Int × SiteState) :=
  (historySinceRev since hist.reverse).reverse

/-- Result of `Database::get_start_duration_estimate`: the `anyhow` error, a
panic (out-of-bounds `values[idx]`), or a duration in nanoseconds. -/
inductive EstimateResult
  | noData
  | panicked
  | ok (ns : Nat)
deriving DecidableEq

/-- Backwards scan of `Database::get_start_duration_estimate` collecting start
durations: an `Up` row remembers its timestamp; a `Starting` row met later in
the backwards scan (hence with a smaller timestamp) yields the sample
`t(Up) - t(Starting)`; other states reset the remembered `Up`.  Negative
durations are skipped (`Duration::to_std` fails on them). -/
def collectStartDurations (last_started_time : Option Nat) :
    List (Nat × SiteState) → List Nat
  | [] => []
  | (t, s) :: rest =>
    match s with
    | .Up => collectStartDurations (some t) rest
    | .Starting =>
      match last_started_time with
      | some started =>
        if t ≤ started then (started - t) :: collectStartDurations none rest
        else collectStartDurations none rest
      | none => collectStartDurations none rest
    | _ => collectStartDurations none rest

/-- `Database::get_start_duration_estimate` (database.rs lines 291-332): scan
the site's rows newest first, collect samples, fail with `No durations stored`
when empty, otherwise return `values[values.len() * percentile / 100]` — which
panics when that index is out of bounds. -/
def get_start_duration_estimate (hist : StateHistory) (percentile : Nat) : EstimateResult :=
  let values := collectStartDurations none hist.reverse
  if values.isEmpty then .noData
  else
    match values.get? (values.length * percentile / 100) with
    | some v => .ok v
    | none => .panicked

/-!  The `connections` table: rows `(epoch_seconds, list of records)` in
ascending key order; `put_connection_metadata` appends to the list at a key. -/

/-- The `connections` table, ascending keys, one record list per second. -/
abbrev ConnTable := List (Nat × List ConnectionMetadata)

/-- The in-loop service filter of `Database::get_connection_history`: a record
is skipped when a `service` filter is set and does not match. -/
def keepMeta (service : Option String) (m : ConnectionMetadata) : Bool :=
  if service.isSome ∧ m.service ≠ service then false else true

/-- The accumulation loop of `Database::get_connection_history`: for each
timestamp group, push every surviving record, then stop as soon as at least
`min_results` records have been collected. -/
def collectGroups (service : Option String) (min_results : Nat)
    (acc : List (Nat × ConnectionMetadata)) :
    List (Nat × List ConnectionMetadata) → List (Nat × ConnectionMetadata)
  | [] => acc
  | (t, metas) :: rest =>
    let acc2 := acc ++ (metas.filter (keepMeta service)).map (fun m => (t, m))
    if min_results ≤ acc2.length then acc2
    else collectGroups service min_results acc2 rest

/-- `Database::get_connection_history` (database.rs lines 96-145): with
`before`, scan keys `< before` newest first; with `after`, scan keys `> after`
oldest first and reverse at the end; any other combination is an error. -/
def get_connection_history (table : ConnTable) (service : Option String)
    (before after : Option Nat) (min_results : Nat) :
    Except String (List (Nat × ConnectionMetadata)) :=
  match before, after with
  | some b, none =>
    .ok (collectGroups service min_results [] ((table.filter (fun g => g.1 < b)).reverse))
  | none, some a =>
    .ok (collectGroups service min_results [] (table.filter (fun g => a + 1 ≤ g.1))).reverse
  | _, _ => .error "Must specify either before or after, but not both"

/-!  ## The per-site controller (`backend/src/controller.rs`)

The controller keeps its state in two leaked atomics (`state`,
`state_last_changed`); the cooldown marks live in the two `LazyLock` hash maps
of the cooldown module (the backend crate imports `get_last_started`,
`get_last_stopped`, `mark_stopped`, `try_mark_started` from its crate root; the
module itself is the sibling crate's `src/cooldown.rs`).  A `SystemState`
bundles, for one site, the in-memory controller state, the durable per-site
slice of the `states` table, and the cooldown marks. -/

/-- Combined state of one site: the controller's atomics, the site's rows in
the durable `states` table, and the cooldown marks. -/
structure SystemState where
  memState : SiteState
  memLastChangedMs : Nat
  db : StateHistory
  lastStartedMark : Option Nat
  lastStoppedMark : Option Nat
deriving DecidableEq

/-- `SiteController::new` (controller.rs lines 17-28): both atomics start at 0,
so `get_state` reads `Unknown`; nothing is written anywhere else. -/
def initController (db0 : StateHistory) : SystemState :=
  { memState := .Unknown
    memLastChangedMs := 0
    db := db0
    lastStartedMark := none
    lastStoppedMark := none }

/-- Observable side effects of controller operations (nginx symlink switch and
reload, supervisor invocations, the start-done broadcast, the start-duration
sample store). -/
inductive SideEffect
  | nginxSwitchHibernating
  | nginxSwitchAvailable
  | systemctlStart
  | systemctlStop
  | broadcastStartDone
  | storeStartDuration (ms : Nat)
deriving DecidableEq

/-- `SiteController::set_state` (controller.rs lines 74-87): a no-op when the
new state equals the in-memory one; otherwise store the state and the current
millisecond timestamp in the atomics and run the edge side effect (`on_down` /
`on_up`).  The durable `states` table is not touched. -/
def set_state (sys : SystemState) (nowMs : Nat) (state : SiteState) :
    SystemState × List SideEffect :=
  if sys.memState = state then (sys, [])
  else
    ({ sys with memState := state, memLastChangedMs := nowMs },
     match state with
     | .Down => [.nginxSwitchHibernating]
     | .Up => [.nginxSwitchAvailable]
     | _ => [])

/-- `SiteController::get_state` (controller.rs lines 89-98): read the atomic. -/
def get_state (sys : SystemState) : SiteState :=
  sys.memState

/-- `get_state_with_last_changed` (controller.rs lines 106-109): the in-memory
state and its change time in seconds (`ms / 1000`). -/
def get_state_with_last_changed (sys : SystemState) : SiteState × Nat :=
  (sys.memState, sys.memLastChangedMs / 1000)

/-- `try_mark_started` (cooldown module, `src/cooldown.rs` lines 27-40): refuse
when the site was last started less than `keep_alive` seconds ago
(`now.saturating_sub(last_started) < keep_alive`); otherwise record `now` as
the new mark.  Returns the decision and the updated mark. -/
def try_mark_started (keep_alive : Nat) (now : Nat) (lastStarted : Option Nat) :
    Bool × Option Nat :=
  match lastStarted with
  | some t => if now - t < keep_alive then (false, some t) else (true, some now)
  | none => (true, some now)

/-- `mark_stopped` (cooldown module): record `now` as the stop mark. -/
def mark_stopped (sys : SystemState) (now : Nat) : SystemState :=
  { sys with lastStoppedMark := some now }

/-- The date-extraction loop of `should_shutdown` (controller.rs lines
214-225): the surviving log line is abstracted to the list of its `[...]`
bracket groups, each already resolved to `some timestamp` when it parses with
`%d/%b/%Y:%H:%M:%S %z` and `none` when it does not.  Non-parsing groups are
skipped; running out of groups is the `no date in last line` error. -/
def find_date : List (Option Nat) → Except String Nat
  | [] => .error "no date in last line"
  | some d :: _ => .ok d
  | none :: rest => find_date rest

/-- `SiteController::should_shutdown` (controller.rs lines 139-249), with the
access-log scan abstracted to its result: `last_request = none` models the
loop running out of lines (no qualifying line), `some t` a surviving line whose
date parsed to `t`.  The no-line branch reads the in-memory
`get_state_with_last_changed`; the line branch takes the running maximum of the
request timestamp and the cooldown marks, then compares
`now.saturating_sub(last_action)` with `keep_alive` (natural subtraction is
saturating). -/
def should_shutdown (keep_alive : Nat) (now : Nat) (state : SiteState)
    (last_changed : Nat) (last_request : Option Nat)
    (last_started last_stopped : Option Nat) : ShouldShutdown :=
  match last_request with
  | none =>
    if state.is_up = false then .NotUntil (now + keep_alive)
    else if keep_alive ≤ now - last_changed then .Now
    else .NotUntil (last_changed + keep_alive)
  | some req =>
    let la1 := req
    let la2 := match last_started with
      | some t => max la1 t
      | none => la1
    let last_action := match last_stopped with
      | some t => max la2 t
      | none => la2
    if keep_alive < now - last_action then .Now
    else .NotUntil (last_action + keep_alive + 1)

/-- `SiteController::check` (controller.rs lines 251-291).  `healthy` is the
outcome of the TCP health probe, `logScan` the outcome of reading and scanning
the access log (an error models an unreadable log or an unparseable surviving
line), `stop_ok` whether `systemctl stop` succeeds.  Returns the new system
state, the side effects, and the next check time. -/
def check (keep_alive : Nat) (sys : SystemState) (now : Nat) (healthy : Bool)
    (logScan : Except String (Option Nat)) (stop_ok : Bool) :
    SystemState × List SideEffect × Nat :=
  if healthy then
    match logScan with
    | .error _ =>
      let (sys, evs) := set_state sys (now * 1000) .Up
      (sys, evs, now + keep_alive)
    | .ok last_request =>
      match should_shutdown keep_alive now sys.memState (sys.memLastChangedMs / 1000)
          last_request sys.lastStartedMark sys.lastStoppedMark with
      | .Now =>
        let sys := mark_stopped sys now
        let (sys, evs) := set_state sys (now * 1000) .Down
        if stop_ok then (sys, evs ++ [.systemctlStop], now + keep_alive)
        else
          let (sys, evs2) := set_state sys (now * 1000) .Unknown
          (sys, evs ++ [.systemctlStop] ++ evs2, now + keep_alive)
      | .NotUntil next_check =>
        let (sys, evs) := set_state sys (now * 1000) .Up
        (sys, evs, next_check)
  else
    let (sys, evs) := set_state sys (now * 1000) .Down
    (sys, evs, now + keep_alive)

/-- `SiteController::start` (controller.rs lines 293-331).  `systemctl_ok` is
the outcome of `systemctl start`; `healthy_in_time` tells whether the health
probe succeeds before `start_timeout_ms` elapses; `elapsed_ms` is the measured
start duration.  The cooldown gate runs first; on supervisor error the function
returns with no state change; otherwise it sets `Starting`, polls, sets the
resulting state (`Up` or `Unknown`), broadcasts start-done, and stores a
start-duration sample when the site came up. -/
def start (keep_alive : Nat) (sys : SystemState) (now : Nat)
    (systemctl_ok : Bool) (healthy_in_time : Bool) (elapsed_ms : Nat) :
    SystemState × List SideEffect :=
  match try_mark_started keep_alive now sys.lastStartedMark with
  | (false, _) => (sys, [])
  | (true, mark2) =>
    let sys := { sys with lastStartedMark := mark2 }
    if systemctl_ok = false then (sys, [.systemctlStart])
    else
      let (sys, ev1) := set_state sys (now * 1000) .Starting
      let result := if healthy_in_time then SiteState.Up else SiteState.Unknown
      let (sys, ev2) := set_state sys (now * 1000) result
      let evs := SideEffect.systemctlStart :: (ev1 ++ ev2 ++ [.broadcastStartDone])
      if result = .Up then (sys, evs ++ [.storeStartDuration elapsed_ms])
      else (sys, evs)

/-- The property asserted by claim C1, stated from the specification's words:
the controller's current state equals the state of the highest-timestamp row of
the site's durable `states` table. -/
def currentStateMatchesDb (sys : SystemState) : Prop :=
  ∃ ts s, sys.db.getLast? = some (ts, s) ∧ get_state sys = s

/-- The decision rule asserted by claim C4, stated from the specification's
words: in the log-line branch, `t_last_action = max(T_last_req, t_s if s !=
Unknown)` where `(s, t_s)` is the last state. -/
def should_shutdown_claim (keep_alive : Nat) (now : Nat) (state : SiteState)
    (t_s : Nat) (last_request : Option Nat) : ShouldShutdown :=
  match last_request with
  | none =>
    if state.is_up = false then .NotUntil (now + keep_alive)
    else if keep_alive ≤ now - t_s then .Now
    else .NotUntil (t_s + keep_alive)
  | some req =>
    let t_last_action := if state ≠ SiteState.Unknown then max req t_s else req
    if keep_alive < now - t_last_action then .Now
    else .NotUntil (t_last_action + keep_alive + 1)

/-- The amended decision rule for claim C4: `t_last_action` is the maximum of
the last request timestamp and the cooldown marks (each counted when present),
and the comparison uses saturating subtraction. -/
def should_shutdown_amended (keep_alive : Nat) (now : Nat) (state : SiteState)
    (last_changed : Nat) (last_request : Option Nat)
    (last_started last_stopped : Option Nat) : ShouldShutdown :=
  match last_request with
  | none =>
    if state.is_up = false then .NotUntil (now + keep_alive)
    else if keep_alive ≤ now - last_changed then .Now
    else .NotUntil (last_changed + keep_alive)
  | some req =>
    let t_last_action := max req (max (last_started.getD 0) (last_stopped.getD 0))
    if keep_alive < now - t_last_action then .Now
    else .NotUntil (t_last_action + keep_alive + 1)

/-!  ## The front door (`backend/src/server.rs`)

The request head has already been read as a list of lines (one per header, the
request line first).  Path-blacklist globs are modelled as predicates on the
request target.  The proxy-and-wait phase and the progress estimate are
oracles supplied through the environment; the hibernator API branch is
abstracted to a single outcome (none of the settled claims depends on its
routing).  `none` models a panic: the connection task dies, nothing further is
written and no record is stored. -/

/-- `ProxyMode` from `src/config.rs`. -/
inductive ProxyMode
  | Always
  | WhenReady
  | Never
deriving DecidableEq

/-- The slice of `SiteConfig` (`src/config.rs`) the front door reads. -/
structure SiteConfig where
  name : String
  hosts : List String
  path_blacklist : Option (List (String → Bool))
  ip_blacklist : Option (List String)
  ip_whitelist : Option (List String)
  proxy_mode : ProxyMode
  browser_proxy_mode : ProxyMode

/-- One entry of `SITE_CONTROLLERS` as seen by the front door: its config, its
in-memory state, and the `get_progress` oracle (done, estimate). -/
structure SiteEntry where
  config : SiteConfig
  state : SiteState
  progress : Option (Nat × Nat)

/-- Outcome oracle for the proxy-and-wait phase (`try_proxy` retry loop under
the `proxy_timeout_ms` deadline). -/
inductive ProxyPhase
  | success
  | failure
  | timedOut
deriving DecidableEq

/-- Environment of one connection: the controller table and the proxy oracle. -/
structure ConnEnv where
  sites : List SiteEntry
  proxy : ProxyPhase

/-- What is written back on the socket: a status-line response or the raw
upstream bytes. -/
inductive HttpResponse
  | status (code : Nat)
  | upstream
deriving DecidableEq

/-- Result of `handle_connection`: an API-handled request (no record
persisted), or a response together with the `ConnectionMetadata` handed to
`put_connection_metadata`. -/
inductive ConnOutcome
  | apiHandled
  | replied (resp : HttpResponse) (record : ConnectionMetadata)
deriving DecidableEq

/-!  Byte-level string helpers mirroring the `str` operations the front door
uses.  They operate on the character list underlying a `String` so that every
definition reduces by plain structural recursion (headers are ASCII, so
character-level and byte-level indexing agree). -/

/-- Rust `str::to_lowercase` on ASCII header data. -/
def lowerStr (s : String) : String :=
  ⟨s.data.map Char.toLower⟩

/-- Rust `str::starts_with`. -/
def strStarts (s p : String) : Bool :=
  p.data.isPrefixOf s.data

/-- Rust byte-slice `&line[n..]`. -/
def strDrop (s : String) (n : Nat) : String :=
  ⟨s.data.drop n⟩

/-- Rust `String::truncate(n)`. -/
def strTake (s : String) (n : Nat) : String :=
  ⟨s.data.take n⟩

/-- Splitting on a separator character, keeping empty fields. -/
def splitChars (sep : Char) : List Char → List Char → List String
  | [], cur => [⟨cur.reverse⟩]
  | d :: rest, cur =>
    if d == sep then ⟨cur.reverse⟩ :: splitChars sep rest []
    else splitChars sep rest (d :: cur)

/-- Rust `str::parse::<usize>` (digit strings; sign handling omitted). -/
def strToNat? (s : String) : Option Nat :=
  if s.data ≠ [] ∧ s.data.all Char.isDigit then
    some (s.data.foldl (fun n c => n * 10 + (c.toNat - 48)) 0)
  else none

/-- Rust `str::split_whitespace` on the header lines (space-separated). -/
def splitWhitespace (s : String) : List String :=
  (splitChars ' ' s.data []).filter (fun t => t ≠ "")

/-- The HTTP method tokens recognized by `ConnectionMetadata::new`. -/
def isMethodWord (w : String) : Bool :=
  w == "GET" || w == "POST" || w == "PUT" || w == "DELETE" || w == "PATCH" ||
  w == "HEAD" || w == "OPTIONS" || w == "CONNECT" || w == "TRACE"

/-- `ConnectionMetadata::new` (server.rs lines 35-71): extract method and URL
from the first line, drop `X-Real-IP` and request lines, keep only lines before
the first empty one, truncate each line to 2000 bytes and keep at most 30. -/
def metadata_new (request : List String) (result : ConnectionResult)
    (is_browser : Bool) (real_ip : Option String) : ConnectionMetadata :=
  let parts := match request.head? with
    | some l => splitWhitespace l
    | none => []
  let method := (parts.get? 0).getD "-"
  let url := (parts.get? 1).getD "-"
  let request := request.filter (fun line =>
    !(strStarts (lowerStr line) "x-real-ip:") &&
    !(match (splitWhitespace line).head? with
      | some w => isMethodWord w
      | none => false))
  let request := request.takeWhile (fun line => line ≠ "")
  let request := request.map (fun line => strTake line 2000)
  let request := request.take 30
  { request := request, result := result, service := none,
    is_browser := is_browser, real_ip := real_ip, method := method, url := url }

/-- `ConnectionMetadata::with_controller` (server.rs lines 73-76). -/
def withService (m : ConnectionMetadata) (name : String) : ConnectionMetadata :=
  { m with service := some name }

/-- The path-blacklist test at the top of `should_be_processed`. -/
def pathBlocked (cfg : SiteConfig) (path : String) : Bool :=
  match cfg.path_blacklist with
  | some bl => bl.any (fun g => g path)
  | none => false

/-- The whitelist tail of `should_be_processed` (server.rs lines 132-140):
present and matched keeps the request, present and unmatched drops it, absent
keeps it; it calls `real_ip.unwrap()` when present. -/
def whitelistStep (cfg : SiteConfig) (real_ip : Option String) : Option Bool :=
  match cfg.ip_whitelist with
  | some wl =>
    match real_ip with
    | none => none
    | some ip => some (wl.any (fun w => strStarts ip w))
  | none => some true

/-- `should_be_processed` (server.rs lines 114-143): path blacklist first, then
the IP blacklist and whitelist, each of which calls `real_ip.unwrap()` — a
panic (`none`) when the request carried no `X-Real-IP` header. -/
def should_be_processed (cfg : SiteConfig) (path : String)
    (real_ip : Option String) : Option Bool :=
  if pathBlocked cfg path then some false
  else
    match cfg.ip_blacklist with
    | some bl =>
      match real_ip with
      | none => none
      | some ip =>
        if bl.any (fun b => strStarts ip b) then some false
        else whitelistStep cfg real_ip
    | none => whitelistStep cfg real_ip

/-- `handle_connection` (server.rs lines 163-363).  The request head is the
line list; `none` is a panic of the connection task.  The panics modelled are
exactly the source's `expect`s on this path: an empty head, a request line
without a second token, a missing head line during gating, an unparseable
`Content-Length`.  The API branch (lines 182-230) is abstracted to
`apiHandled`. -/
def handle_connection (env : ConnEnv) (http_request : List String) : Option ConnOutcome :=
  let is_browser := http_request.any (fun line => lowerStr line == "sec-fetch-mode: navigate")
  let real_ip := (http_request.find? (fun line => strStarts (lowerStr line) "x-real-ip: ")).map
    (fun line => strDrop line 11)
  match http_request.head? with
  | none => none
  | some first_line =>
  match (splitWhitespace first_line).get? 1 with
  | none => none
  | some path =>
  if strStarts path "/hibernator-api/" then some .apiHandled
  else
  let host := (http_request.find? (fun line => strStarts (lowerStr line) "host: ")).map
    (fun line => lowerStr (strDrop line 6))
  match host with
  | none => some (.replied (.status 500)
      (metadata_new http_request .MissingHost is_browser real_ip))
  | some host =>
  match env.sites.find? (fun e => e.config.hosts.contains host) with
  | none => some (.replied (.status 500)
      (metadata_new http_request .UnknownSite is_browser real_ip))
  | some entry =>
  match should_be_processed entry.config path real_ip with
  | none => none
  | some false => some (.replied (.status 503)
      (withService (metadata_new http_request .Ignored is_browser real_ip) entry.config.name))
  | some true =>
  let proxy_mode := if is_browser then entry.config.browser_proxy_mode
    else entry.config.proxy_mode
  let should_proxy := match proxy_mode with
    | .Always => true
    | .WhenReady => entry.state.is_up
    | .Never => false
  if should_proxy = false then
    some (.replied (.status 503)
      (withService (metadata_new http_request .Unproxied is_browser real_ip) entry.config.name))
  else
  let content_length :=
    match http_request.find? (fun line => strStarts (lowerStr line) "content-length: ") with
    | none => some 0
    | some line => strToNat? (strDrop line 16)
  match content_length with
  | none => none
  | some _ =>
  match env.proxy with
  | .success => some (.replied .upstream
      (withService (metadata_new http_request .ProxySuccess is_browser real_ip) entry.config.name))
  | .failure => some (.replied (.status 500)
      (withService (metadata_new http_request .ProxyFailed is_browser real_ip) entry.config.name))
  | .timedOut => some (.replied (.status 504)
      (withService (metadata_new http_request .ProxyTimeout is_browser real_ip) entry.config.name))

/-- The accept-loop persistence step (`setup_server`, server.rs lines 91-112):
nothing is stored when the task panicked or when the request was API-handled;
otherwise the returned record is stored. -/
def stored_connection (env : ConnEnv) (http_request : List String) :
    Option ConnectionMetadata :=
  match handle_connection env http_request with
  | none => none
  | some .apiHandled => none
  | some (.replied _ r) => some r

/-!  ## Metrics (`backend/src/api.rs`, `handle_metrics_request`)

Percentages are computed in `f64`; they are modelled exactly in `ℚ` (every
quantity involved is an integer ratio).  Timestamps in the walk are signed
(`DateTime`), converted to milliseconds with floor division as
`timestamp_millis` does; the `as u64` cast of a pair's millisecond difference
is `Int.toNat` (pairs are chronological, so the difference is non-negative).
The loop bound `state_history.len() - 1` underflows on an empty history — a
panic, modelled as `none`.  A panic inside `get_start_duration_estimate`
(claim C5) also propagates: `.ok()` catches errors, not panics. -/

/-- `DateTime::timestamp_millis` applied to a nanosecond timestamp. -/
def msOf (t : Int) : Int :=
  Int.fdiv t 1000000

/-- The accumulators of the metrics walk. -/
structure MetricsAcc where
  uptime : Nat
  available : Nat
  hibernations : Nat
  starts : List Nat
deriving DecidableEq

/-- One iteration of the pair walk (api.rs lines 276-308). -/
def stepPair (acc : MetricsAcc) (p : (Int × SiteState) × (Int × SiteState)) : MetricsAcc :=
  let duration_ms := (msOf p.2.1 - msOf p.1.1).toNat
  match p.1.2, p.2.2 with
  | .Unknown, _ => acc
  | _, .Unknown => acc
  | .Down, .Down => { acc with available := acc.available + duration_ms }
  | .Down, .Starting => { acc with available := acc.available + duration_ms }
  | .Starting, .Down => { acc with available := acc.available + duration_ms }
  | .Starting, .Starting => { acc with available := acc.available + duration_ms }
  | .Down, .Up => { acc with available := acc.available + duration_ms }
  | .Starting, .Up =>
    { acc with available := acc.available + duration_ms,
               starts := acc.starts ++ [duration_ms] }
  | .Up, .Down =>
    { acc with available := acc.available + duration_ms,
               uptime := acc.uptime + duration_ms,
               hibernations := acc.hibernations + 1 }
  | .Up, .Starting =>
    { acc with available := acc.available + duration_ms,
               uptime := acc.uptime + duration_ms,
               hibernations := acc.hibernations + 1 }
  | .Up, .Up =>
    { acc with available := acc.available + duration_ms,
               uptime := acc.uptime + duration_ms }

/-- The consecutive pairs `(h[i], h[i+1])` walked by the loop. -/
def consecutivePairs (l : List (Int × SiteState)) : List ((Int × SiteState) × (Int × SiteState)) :=
  l.zip l.tail

/-- The whole pair walk (api.rs lines 271-308). -/
def metricsWalk (l : List (Int × SiteState)) : MetricsAcc :=
  (consecutivePairs l).foldl stepPair ⟨0, 0, 0, []⟩

/-- The 5-bucket start-duration histogram (api.rs lines 323-329). -/
def histogram (ds : List Nat) : List Nat :=
  [ (ds.filter (fun d => decide (d < 1000))).length
  , (ds.filter (fun d => decide (1000 ≤ d) && decide (d < 5000))).length
  , (ds.filter (fun d => decide (5000 ≤ d) && decide (d < 10000))).length
  , (ds.filter (fun d => decide (10000 ≤ d) && decide (d < 30000))).length
  , (ds.filter (fun d => decide (30000 ≤ d))).length ]

/-- The reported metrics (api.rs struct `ServiceMetrics`). -/
structure ServiceMetrics where
  hibernating_percentage : ℚ
  available_percentage : ℚ
  total_hibernations : Nat
  start_times_histogram : List Nat
  start_duration_estimate_ms : Option Nat
deriving DecidableEq

/-- The walked history (api.rs lines 254-268): the state history since `since`
with the last entry duplicated at `now` when it is older than `now`. -/
def metricsHistory (hist : StateHistory) (now since : Int) : List (Int × SiteState) :=
  let h0 := get_state_history_since hist since
  match h0.getLast? with
  | some (t, s) => if t < now then h0 ++ [(now, s)] else h0
  | none => h0

/-- The computational core of `handle_metrics_request` (api.rs lines 226-346):
fetch the state history since `now - seconds`, duplicate the last entry at
`now` when it is older, walk the pairs, and report the percentages, the
histogram and the estimate.  `none` models a panic: the empty-history loop
bound underflow, or an out-of-bounds index inside
`get_start_duration_estimate`. -/
def handle_metrics_core (hist : StateHistory) (now : Int) (seconds : Int)
    (eta_percentile : Nat) : Option ServiceMetrics :=
  let h := metricsHistory hist now (now - seconds * 1000000000)
  match h with
  | [] => none
  | _ :: _ =>
    let acc := metricsWalk h
    match get_start_duration_estimate hist eta_percentile with
    | .panicked => none
    | est =>
      some { hibernating_percentage :=
               if 0 < acc.available then
                 (((acc.available - acc.uptime : ℕ) : ℚ) / (acc.available : ℚ)) * 100
               else 0
           , available_percentage :=
               if 0 < seconds then
                 ((acc.available : ℚ) / ((seconds : ℚ) * 1000)) * 100
               else 0
           , total_hibernations := acc.hibernations
           , start_times_histogram := histogram acc.starts
           , start_duration_estimate_ms :=
               match est with
               | .ok ns => some (ns / 1000000)
               | _ => none }

/-!  Specification-side accumulation functions for claim C6, written from the
spec's transition table (§4.5): per consecutive pair, a pair with `Unknown` at
either end contributes nothing; every other pair adds its duration to
`available`; a pair leaving `Up` adds to `uptime`; `Up → Down/Starting` counts
a hibernation; `Starting → Up` records a start sample. -/

/-- A pair's millisecond duration. -/
def pairDelta (p : (Int × SiteState) × (Int × SiteState)) : Nat :=
  (msOf p.2.1 - msOf p.1.1).toNat

/-- Spec-side `available` contribution of one pair. -/
def availContrib (p : (Int × SiteState) × (Int × SiteState)) : Nat :=
  match p.1.2, p.2.2 with
  | .Unknown, _ => 0
  | _, .Unknown => 0
  | _, _ => pairDelta p

/-- Spec-side `uptime` contribution of one pair. -/
def uptimeContrib (p : (Int × SiteState) × (Int × SiteState)) : Nat :=
  match p.1.2, p.2.2 with
  | .Up, .Down => pairDelta p
  | .Up, .Starting => pairDelta p
  | .Up, .Up => pairDelta p
  | _, _ => 0

/-- Spec-side hibernation count of one pair. -/
def hibContrib (p : (Int × SiteState) × (Int × SiteState)) : Nat :=
  match p.1.2, p.2.2 with
  | .Up, .Down => 1
  | .Up, .Starting => 1
  | _, _ => 0

/-- Spec-side start-duration sample of one pair. -/
def startSample (p : (Int × SiteState) × (Int × SiteState)) : Option Nat :=
  match p.1.2, p.2.2 with
  | .Starting, .Up => some (pairDelta p)
  | _, _ => none

/-- Spec-side totals over a walked history. -/
def availSpec (l : List (Int × SiteState)) : Nat :=
  ((consecutivePairs l).map availContrib).sum

/-- Spec-side uptime total. -/
def uptimeSpec (l : List (Int × SiteState)) : Nat :=
  ((consecutivePairs l).map uptimeContrib).sum

/-- Spec-side hibernation total. -/
def hibSpec (l : List (Int × SiteState)) : Nat :=
  ((consecutivePairs l).map hibContrib).sum

/-- Spec-side start-duration samples, in walk order. -/
def startSamplesSpec (l : List (Int × SiteState)) : List Nat :=
  (consecutivePairs l).filterMap startSample

/-!  ## Concrete configurations and records used in closed statements -/

/-- A stored record with no populated fields, used in concrete tables. -/
def mEmpty : ConnectionMetadata :=
  { request := [], result := .Ignored, service := none, is_browser := false,
    real_ip := none, method := "-", url := "-" }

/-- A one-site environment: host `a.example`, no gating lists, proxy always. -/
def envA : ConnEnv :=
  { sites := [{ config := { name := "s1", hosts := ["a.example"],
                            path_blacklist := none, ip_blacklist := none,
                            ip_whitelist := none, proxy_mode := .Always,
                            browser_proxy_mode := .Always },
                state := .Down, progress := none }],
    proxy := .success }

/-- A site with both a path blacklist (matching `/blocked`) and an IP
blacklist. -/
def cfgB : SiteConfig :=
  { name := "s2", hosts := ["b.example"],
    path_blacklist := some [fun p => p == "/blocked"],
    ip_blacklist := some ["10."], ip_whitelist := none,
    proxy_mode := .Always, browser_proxy_mode := .Always }

/-- Environment holding only `cfgB`. -/
def envB : ConnEnv :=
  { sites := [{ config := cfgB, state := .Down, progress := none }], proxy := .success }

/-!  ## Helper lemmas -/

/-- Inserting a key greater than every key of the list appends. -/
theorem putState_append (hist : StateHistory) (now : Nat) (s : SiteState)
    (hfresh : ∀ p ∈ hist, p.1 < now) : putState hist now s = hist ++ [(now, s)] := by
  induction hist with
  | nil => rfl
  | cons hd tl ih =>
    have h1 : hd.1 < now := hfresh hd (List.mem_cons_self hd tl)
    obtain ⟨t, v⟩ := hd
    simp only [putState]
    rw [if_neg (by omega), if_neg (by omega)]
    simp only [List.cons_append, List.cons.injEq, true_and]
    exact ih (fun p hp => hfresh p (List.mem_cons_of_mem _ hp))

/-- In a strictly ascending table the last row has the highest key. -/
theorem getLast?_key_max (hist : StateHistory) (p : Nat × SiteState)
    (hsort : hist.Pairwise (fun a b => a.1 < b.1))
    (hlast : hist.getLast? = some p) : ∀ q ∈ hist, q.1 ≤ p.1 := by
  induction hist with
  | nil => simp at hlast
  | cons hd tl ih =>
    intro q hq
    cases tl with
    | nil =>
      simp [List.getLast?] at hlast
      simp at hq
      subst hlast hq
      exact le_refl _
    | cons b t =>
      have hlast' : (b :: t).getLast? = some p := by
        simpa [List.getLast?_cons_cons] using hlast
      have hsort' : (b :: t).Pairwise (fun a c => a.1 < c.1) := (List.pairwise_cons.mp hsort).2
      rcases List.mem_cons.mp hq with hq | hq
      · subst hq
        have hpmem : p ∈ b :: t := by
          obtain ⟨hne, hp⟩ := List.mem_getLast?_eq_getLast (Option.mem_def.mpr hlast')
          rw [hp]
          exact List.getLast_mem hne
        exact le_of_lt ((List.pairwise_cons.mp hsort).1 p hpmem)
      · exact ih hsort' hlast' q hq

/-!  ## Claim theorems -/

/-- C1: the claim states that after any sequence of controller operations the
in-memory current state equals the state of the highest-timestamp row of the
site's durable `states` table.  On this code it does not: `set_state` only
writes the atomics (`Database::update_state` is called nowhere), so after
construction and a single `check()` whose health probe fails, `get_state`
returns `Down` while the `states` table is still empty — there is no persisted
row at all for the in-memory state to match. -/
theorem C1_state_not_persisted :
    (check 60 (initController []) 1000 false (Except.ok none) true).1.memState = SiteState.Down
    ∧ (check 60 (initController []) 1000 false (Except.ok none) true).1.db = []
    ∧ ¬ currentStateMatchesDb (check 60 (initController []) 1000 false (Except.ok none) true).1 := by
  refine ⟨by decide, by decide, ?_⟩
  rintro ⟨ts, s, hlast, -⟩
  have hdb : (check 60 (initController []) 1000 false (Except.ok none) true).1.db = [] := by decide
  rw [hdb] at hlast
  simp at hlast

/-- C2: `try_update_state` returns `true` iff the highest-timestamp state
recorded before the call is not in the excluded set (vacuously true when no
state exists); on `true` the table gains exactly the one new row, appended at
the end (its key is larger than every existing key); on `false` the table is
unchanged.  The last conjunct certifies that in a strictly ascending table the
row read by the backwards iterator (the last one) is indeed the
highest-timestamp row. -/
theorem C2_try_update_state_correct (hist : StateHistory) (now : Nat) (s : SiteState)
    (excl : List SiteState)
    (hsort : hist.Pairwise (fun a b => a.1 < b.1))
    (hfresh : ∀ p ∈ hist, p.1 < now) :
    ((try_update_state hist now s excl).1 = true ↔
      ∀ p, hist.getLast? = some p → p.2 ∉ excl)
    ∧ ((try_update_state hist now s excl).1 = true →
        (try_update_state hist now s excl).2 = hist ++ [(now, s)])
    ∧ ((try_update_state hist now s excl).1 = false →
        (try_update_state hist now s excl).2 = hist)
    ∧ (∀ p, hist.getLast? = some p → ∀ q ∈ hist, q.1 ≤ p.1) := by
  have happ := putState_append hist now s hfresh
  have hmax : ∀ p, hist.getLast? = some p → ∀ q ∈ hist, q.1 ≤ p.1 :=
    fun p hp => getLast?_key_max hist p hsort hp
  rcases hl : hist.getLast? with _ | ⟨t, st⟩
  · refine ⟨?_, ?_, ?_, fun p hp => nomatch hp⟩
    · simp [try_update_state, hl]
    · intro _h
      simp only [try_update_state, hl]
      exact happ
    · intro hfalse
      simp [try_update_state, hl] at hfalse
  · have hmax2 : ∀ p, some (t, st) = some p → ∀ q ∈ hist, q.1 ≤ p.1 :=
      fun p hp => hmax p (by rw [hl]; exact hp)
    by_cases hmem : st ∈ excl
    · refine ⟨?_, ?_, ?_, hmax2⟩
      · constructor
        · intro h
          simp [try_update_state, hl, hmem] at h
        · intro h
          exact absurd hmem (h (t, st) rfl)
      · intro h
        simp [try_update_state, hl, hmem] at h
      · intro _h
        simp [try_update_state, hl, hmem]
    · refine ⟨?_, ?_, ?_, hmax2⟩
      · simp only [try_update_state, hl, if_neg hmem, true_iff]
        intro p hp
        injection hp with hp
        rw [← hp]
        exact hmem
      · intro _h
        simp only [try_update_state, hl, if_neg hmem]
        exact happ
      · intro h
        simp [try_update_state, hl, hmem] at h

/-- Witness for C2 at a concrete input: with the table holding one `Up` row at
time 0 and an empty exclusion list, the call at time 5 succeeds and appends
exactly the one row `(5, Down)`. -/
theorem C2_witness :
    (try_update_state [(0, SiteState.Up)] 5 .Down []).1 = true
    ∧ (try_update_state [(0, SiteState.Up)] 5 .Down []).2
        = [(0, SiteState.Up), (5, SiteState.Down)] := by
  have h := C2_try_update_state_correct [(0, SiteState.Up)] 5 .Down []
    (by simp) (by simp)
  exact ⟨h.1.mpr (fun p hp => by simp), h.2.1 (by decide)⟩

/-- `set_state` leaves the in-memory state equal to its argument (it is a
no-op precisely when it is already equal). -/
theorem set_state_memState (sys : SystemState) (ms : Nat) (st : SiteState) :
    (set_state sys ms st).1.memState = st := by
  unfold set_state
  by_cases h : sys.memState = st
  · simp [h]
  · simp [h]

/-- `set_state` never touches the durable `states` table. -/
theorem set_state_db (sys : SystemState) (ms : Nat) (st : SiteState) :
    (set_state sys ms st).1.db = sys.db := by
  unfold set_state
  by_cases h : sys.memState = st
  · simp [h]
  · simp [h]

/-- C3: the claimed start protocol says the first step is
`TryAppendState(Starting, Up, Starting)` and that a supervisor error appends
`Unknown` before exiting.  On this code, with the site `Down` and `systemctl
start` failing, `start()` exits leaving the in-memory state `Down`, the
`states` table untouched (no `Unknown` row anywhere), and no broadcast; and
with the site `Up` and no cooldown mark, the gate passes and the supervisor is
invoked even though the claimed `TryAppendState` gate would have excluded
`Up`. -/
theorem C3_counterexample :
    (start 50 ⟨.Down, 0, [], none, none⟩ 1000 false true 0).1.memState = SiteState.Down
    ∧ (start 50 ⟨.Down, 0, [], none, none⟩ 1000 false true 0).1.db = []
    ∧ (start 50 ⟨.Down, 0, [], none, none⟩ 1000 false true 0).2 = [SideEffect.systemctlStart]
    ∧ SideEffect.systemctlStart ∈ (start 50 ⟨.Up, 0, [(0, .Up)], none, none⟩ 1000 true true 0).2 := by
  decide

/-- C3 (amended): every `start()` invocation follows this protocol: it first
runs the cooldown gate `try_mark_started` and exits silently (no state change,
no side effect) when the site was last started less than `keep_alive` ago; it
then invokes `systemctl start` and on supervisor error exits with the state
unchanged (nothing is appended); otherwise it sets `Starting` in memory, polls
the health probe, sets the resulting state (`Up` or `Unknown`) in memory, and
broadcasts start-done.  The durable `states` table is never written. -/
theorem C3_start_protocol (ka : Nat) (sys : SystemState) (now : Nat)
    (ok hl : Bool) (el : Nat) :
    ((try_mark_started ka now sys.lastStartedMark).1 = false →
        start ka sys now ok hl el = (sys, []))
    ∧ ((try_mark_started ka now sys.lastStartedMark).1 = false ↔
        ∃ t, sys.lastStartedMark = some t ∧ now - t < ka)
    ∧ ((try_mark_started ka now sys.lastStartedMark).1 = true → ok = false →
        (start ka sys now ok hl el).1.memState = sys.memState
        ∧ (start ka sys now ok hl el).1.db = sys.db
        ∧ (start ka sys now ok hl el).2 = [SideEffect.systemctlStart])
    ∧ ((try_mark_started ka now sys.lastStartedMark).1 = true → ok = true →
        (start ka sys now ok hl el).1.memState
            = (if hl then SiteState.Up else SiteState.Unknown)
        ∧ (start ka sys now ok hl el).1.db = sys.db
        ∧ SideEffect.broadcastStartDone ∈ (start ka sys now ok hl el).2
        ∧ SideEffect.systemctlStart ∈ (start ka sys now ok hl el).2) := by
  rcases htm : try_mark_started ka now sys.lastStartedMark with ⟨b, mark2⟩
  refine ⟨?_, ?_, ?_, ?_⟩
  · intro hb
    simp only at hb
    subst hb
    simp [start, htm]
  · rw [← htm]
    unfold try_mark_started
    cases hm : sys.lastStartedMark with
    | none => simp
    | some t =>
      by_cases hlt : now - t < ka
      · simp [hlt]
      · simp [hlt]
  · intro hb hok
    simp only at hb
    subst hb
    rw [hok]
    simp [start, htm]
  · intro hb hok
    simp only at hb
    subst hb
    rw [hok]
    cases hl with
    | false =>
      simp [start, htm, set_state_memState, set_state_db, List.mem_append]
    | true =>
      simp [start, htm, set_state_memState, set_state_db, List.mem_append]

/-- Witness for C3 at a concrete input: site `Down`, no cooldown mark, the
supervisor succeeds and the health probe passes in time: the final in-memory
state is `Up`, the table is untouched, and start-done is broadcast. -/
theorem C3_witness :
    (start 50 ⟨.Down, 0, [], none, none⟩ 1000 true true 0).1.memState = SiteState.Up
    ∧ (start 50 ⟨.Down, 0, [], none, none⟩ 1000 true true 0).1.db = []
    ∧ SideEffect.broadcastStartDone ∈ (start 50 ⟨.Down, 0, [], none, none⟩ 1000 true true 0).2 := by
  have h := (C3_start_protocol 50 ⟨.Down, 0, [], none, none⟩ 1000 true true 0).2.2.2
    (by decide) rfl
  exact ⟨h.1, h.2.1, h.2.2.1⟩

/-- C4: the claim's decision rule computes `t_last_action` as
`max(T_last_req, t_s if s != Unknown)`; the code instead maxes the request
timestamp with the in-memory cooldown marks.  Concrete divergence: the site is
`Up` with `t_s = 200`, the last qualifying request is at 10, `now = 210`,
`keep_alive = 50`, and no cooldown marks are set; the code shuts down `Now`
while the claimed rule answers `NotUntil 251`. -/
theorem C4_counterexample :
    should_shutdown 50 210 .Up 200 (some 10) none none = .Now
    ∧ should_shutdown_claim 50 210 .Up 200 (some 10) = .NotUntil 251
    ∧ ShouldShutdown.Now ≠ .NotUntil 251 := by
  decide

/-- C4 (amended): `should_shutdown` implements the decision rule with
`t_last_action` the maximum of the last request timestamp and the cooldown
marks `last_started` / `last_stopped` (each counted when present, without any
condition on the current state), and with `now − t_last_action` computed by
saturating subtraction; the no-qualifying-line branch is as claimed. -/
theorem C4_should_shutdown_amended_correct (keep_alive now : Nat) (state : SiteState)
    (last_changed : Nat) (last_request last_started last_stopped : Option Nat) :
    should_shutdown keep_alive now state last_changed last_request last_started last_stopped
      = should_shutdown_amended keep_alive now state last_changed
          last_request last_started last_stopped := by
  cases last_request with
  | none => rfl
  | some req =>
    cases last_started <;> cases last_stopped <;>
      simp [should_shutdown, should_shutdown_amended, Option.getD,
        Nat.max_zero, Nat.zero_max, Nat.max_assoc]

/-- C5: at `percentile = 100` with a non-empty sample list the index
`values.len() * percentile / 100` equals `values.len()` and the access
panics — the claimed in-bounds property fails at the upper end of the claimed
range.  History: `Starting` at 0 then `Up` at 1 gives the single sample `[1]`,
and `1 * 100 / 100 = 1` is not `< 1`. -/
theorem C5_counterexample :
    get_start_duration_estimate [(0, SiteState.Starting), (1, SiteState.Up)] 100
      = .panicked
    ∧ ¬ (1 * 100 / 100 < 1) := by
  decide

/-- C5 (amended): for `percentile ∈ [0, 99]`, `get_start_duration_estimate`
fails with `NoData` exactly when the backward scan yields no `(Starting, Up)`
sample pair, and otherwise returns the element of the sampled set at index
`len * percentile / 100`, which is then in bounds. -/
theorem C5_estimate_correct (hist : StateHistory) (p : Nat) (hp : p ≤ 99) :
    (get_start_duration_estimate hist p = .noData
      ↔ collectStartDurations none hist.reverse = [])
    ∧ (collectStartDurations none hist.reverse ≠ [] →
        ∃ h : (collectStartDurations none hist.reverse).length * p / 100
                < (collectStartDurations none hist.reverse).length,
          get_start_duration_estimate hist p
            = .ok ((collectStartDurations none hist.reverse).get
                ⟨(collectStartDurations none hist.reverse).length * p / 100, h⟩)
          ∧ (collectStartDurations none hist.reverse).get
                ⟨(collectStartDurations none hist.reverse).length * p / 100, h⟩
              ∈ collectStartDurations none hist.reverse) := by
  have hbound : ∀ (l : List Nat), l ≠ [] → l.length * p / 100 < l.length := by
    intro l hne
    have hlen : 0 < l.length := List.length_pos.mpr hne
    have h1 : l.length * p ≤ l.length * 99 := Nat.mul_le_mul_left _ hp
    have h3 : l.length * p / 100 ≤ l.length * 99 / 100 := Nat.div_le_div_right h1
    have h2 : l.length * 99 / 100 < l.length := by
      apply Nat.div_lt_of_lt_mul
      omega
    omega
  constructor
  · unfold get_start_duration_estimate
    by_cases he : (collectStartDurations none hist.reverse).isEmpty
    · simp only [he, if_true, true_iff]
      exact List.isEmpty_iff.mp he
    · have hne : collectStartDurations none hist.reverse ≠ [] := by
        intro h
        rw [h] at he
        exact he rfl
      simp only [he, if_false]
      rw [List.get?_eq_get (hbound _ hne)]
      simp [hne]
  · intro hne
    refine ⟨hbound _ hne, ?_, List.get_mem _ _ _⟩
    unfold get_start_duration_estimate
    have he : (collectStartDurations none hist.reverse).isEmpty = false := by
      cases h : collectStartDurations none hist.reverse with
      | nil => exact absurd h hne
      | cons a l => simp [h]
    simp only [he, if_false]
    rw [List.get?_eq_get (hbound _ hne)]
    simp

/-- Witness for C5 at a concrete input: the history `Starting@0, Up@1` has the
single sample `[1]`, and the 95th percentile returns it. -/
theorem C5_witness :
    get_start_duration_estimate [(0, SiteState.Starting), (1, SiteState.Up)] 95
      = .ok 1 := by
  obtain ⟨h, he, -⟩ :=
    (C5_estimate_correct [(0, SiteState.Starting), (1, SiteState.Up)] 95 (by decide)).2
      (by decide)
  exact he

/-- C10: when a site has no recorded state rows, `get_state_history_since`
returns the empty vector and the metrics computation panics on the loop bound
`state_history.len() - 1` (usize underflow, then an out-of-bounds index):
`handle_metrics_core` is `none` — no 200 and no 500 response is produced. -/
theorem C10_empty_history_metrics_panics (now seconds : Int) (eta : Nat) :
    get_state_history_since [] (now - seconds * 1000000000) = []
    ∧ handle_metrics_core [] now seconds eta = none := by
  exact ⟨rfl, rfl⟩

/-- C8: the claim says every parse error in the front-door path is skipped or
answered with a 4xx, and that no panic drops the connection without a
response.  On this code an empty request head panics
(`http_request.first().expect("Request is empty")`): no response is written
and no record is stored. -/
theorem C8_counterexample :
    handle_connection envA [] = none
    ∧ stored_connection envA [] = none := by
  decide

/-- C8 (amended): a malformed bracket group inside the surviving access-log
line is skipped and a line with no parseable date is an error (`should_
shutdown` propagates it; the line is not skipped); an empty request head, a
request line without a target token, and an unparseable `Content-Length` all
panic the connection task — no response (4xx or otherwise) is written and no
record is stored. -/
theorem C8_parse_errors :
    (∀ env, handle_connection env [] = none)
    ∧ (∀ env first_line rest, (splitWhitespace first_line).get? 1 = none →
        handle_connection env (first_line :: rest) = none)
    ∧ (find_date [] = .error "no date in last line")
    ∧ (∀ gs, find_date (none :: gs) = find_date gs)
    ∧ (∀ gs d, find_date (some d :: gs) = .ok d)
    ∧ handle_connection envA ["GET / HTTP/1.1", "Host: a.example", "Content-Length: abc"] = none
    ∧ stored_connection envA ["GET / HTTP/1.1", "Host: a.example", "Content-Length: abc"] = none := by
  refine ⟨fun env => rfl, ?_, rfl, fun gs => rfl, fun gs d => rfl, by decide, by decide⟩
  intro env fl rest hnone
  have hnone2 : (splitWhitespace fl)[1]? = none := by
    rw [← List.get?_eq_getElem?]
    exact hnone
  simp [handle_connection, hnone2]

/-- Witness for C8 at a concrete input: a request whose first line has no
target token panics the handler. -/
theorem C8_witness :
    handle_connection envA ["GET"] = none :=
  C8_parse_errors.2.1 envA "GET" [] (by decide)

/-- C9: the claim says that for every site with an IP blacklist or whitelist,
any request without an `X-Real-IP` header makes `should_be_processed` panic,
with no response written and no record stored.  On this code the path
blacklist is checked first: a request for `/blocked` to a site with both a
path blacklist and an IP blacklist returns the gating decision `false`
without panicking, a 503 is written and an `Ignored` record is stored. -/
theorem C9_counterexample :
    should_be_processed cfgB "/blocked" none = some false
    ∧ handle_connection envB ["GET /blocked HTTP/1.1", "Host: b.example"] ≠ none
    ∧ stored_connection envB ["GET /blocked HTTP/1.1", "Host: b.example"] ≠ none := by
  decide

/-- C9 (amended): for every site with an IP blacklist or whitelist, a request
carrying no `X-Real-IP` header whose path is not rejected by the path
blacklist first makes `should_be_processed` unwrap `None` and panic; at the
call site the connection task dies, so no HTTP response is written and no
`ConnectionRecord` is stored (shown concretely for `cfgB` and a request for
`/ok` with no `X-Real-IP` header). -/
theorem C9_gating_panics :
    (∀ cfg path ip, (cfg.ip_blacklist.isSome = true ∨ cfg.ip_whitelist.isSome = true) →
        ip = none → pathBlocked cfg path = false →
        should_be_processed cfg path ip = none)
    ∧ handle_connection envB ["GET /ok HTTP/1.1", "Host: b.example"] = none
    ∧ stored_connection envB ["GET /ok HTTP/1.1", "Host: b.example"] = none := by
  refine ⟨?_, by decide, by decide⟩
  intro cfg path ip hsome hip hpb
  subst hip
  unfold should_be_processed
  rw [hpb]
  simp only [Bool.false_eq_true, if_false]
  cases hcb : cfg.ip_blacklist with
  | some bl => simp
  | none =>
    unfold whitelistStep
    cases hcw : cfg.ip_whitelist with
    | some wl => simp
    | none =>
      rw [hcb, hcw] at hsome
      simp at hsome

/-- Witness for C9 at a concrete input: `cfgB` has an IP blacklist and `/ok`
is not path-blacklisted, so gating a request without `X-Real-IP` panics. -/
theorem C9_witness :
    should_be_processed cfgB "/ok" none = none :=
  C9_gating_panics.1 cfgB "/ok" none (Or.inl (by decide)) rfl (by decide)

/-- The pair walk with any starting accumulator is the componentwise sum of
the per-pair contributions of the spec's transition table. -/
theorem foldl_stepPair (ps : List ((Int × SiteState) × (Int × SiteState))) (acc : MetricsAcc) :
    ps.foldl stepPair acc =
      ⟨acc.uptime + (ps.map uptimeContrib).sum,
       acc.available + (ps.map availContrib).sum,
       acc.hibernations + (ps.map hibContrib).sum,
       acc.starts ++ ps.filterMap startSample⟩ := by
  induction ps generalizing acc with
  | nil => simp
  | cons p rest ih =>
    rw [List.foldl_cons, ih]
    rcases p with ⟨⟨t1, s1⟩, ⟨t2, s2⟩⟩
    cases s1 <;> cases s2 <;>
      simp [stepPair, uptimeContrib, availContrib, hibContrib, startSample,
        pairDelta, Nat.add_assoc, List.filterMap_cons]

/-- The metrics walk equals the spec-side totals. -/
theorem metricsWalk_eq (l : List (Int × SiteState)) :
    metricsWalk l = ⟨uptimeSpec l, availSpec l, hibSpec l, startSamplesSpec l⟩ := by
  simpa [metricsWalk, uptimeSpec, availSpec, hibSpec, startSamplesSpec]
    using foldl_stepPair (consecutivePairs l) ⟨0, 0, 0, []⟩

/-- Every pair contributes at least as much to `available` as to `uptime`, so
the reported uptime never exceeds the reported availability (and the `u64`
subtraction `available - uptime` cannot underflow). -/
theorem uptimeSpec_le_availSpec (l : List (Int × SiteState)) :
    uptimeSpec l ≤ availSpec l := by
  unfold uptimeSpec availSpec
  apply List.sum_le_sum
  intro p _hp
  rcases p with ⟨⟨t1, s1⟩, ⟨t2, s2⟩⟩
  cases s1 <;> cases s2 <;> simp [uptimeContrib, availContrib]

/-- A site with at least one state row always yields a non-empty walked
history. -/
theorem metricsHistory_ne_nil (hist : StateHistory) (now since : Int)
    (hne : hist ≠ []) : metricsHistory hist now since ≠ [] := by
  have h0ne : get_state_history_since hist since ≠ [] := by
    unfold get_state_history_since
    cases hr : hist.reverse with
    | nil =>
      exact absurd (by simpa using congrArg List.reverse hr) hne
    | cons x xs =>
      rcases x with ⟨t, s⟩
      unfold historySinceRev
      by_cases hlt : (t : Int) < since
      · simp [hlt]
      · simp [hlt]
  unfold metricsHistory
  rcases hgl : (get_state_history_since hist since).getLast? with _ | ⟨t, s⟩
  · simp only [hgl]
    simpa using h0ne
  · simp only [hgl]
    by_cases hlt : t < now
    · simp [hlt]
    · simpa [hlt] using h0ne

/-- C6: for every site with at least one state row (and an estimate call that
does not panic), the metrics computation walks the consecutive pairs of the
since-history with the last entry duplicated at `now`, accumulating per the
spec's transition table, and reports `hibernating_percentage =
(available − uptime)/available · 100` (0 when `available = 0`),
`available_percentage = available/(seconds·1000) · 100` (0 when
`seconds = 0`), the hibernation count, the 5-bucket histogram of the start
samples, and the estimate — with `uptime ≤ available`, so no underflow and no
division by zero occurs. -/
theorem C6_metrics_correct (hist : StateHistory) (now seconds : Int) (eta : Nat)
    (H : List (Int × SiteState))
    (hH : H = metricsHistory hist now (now - seconds * 1000000000))
    (hne : hist ≠ [])
    (hest : get_start_duration_estimate hist eta ≠ .panicked) :
    ∃ m, handle_metrics_core hist now seconds eta = some m
      ∧ m.total_hibernations = hibSpec H
      ∧ m.start_times_histogram = histogram (startSamplesSpec H)
      ∧ uptimeSpec H ≤ availSpec H
      ∧ m.hibernating_percentage =
          (if availSpec H = 0 then 0
           else ((availSpec H : ℚ) - (uptimeSpec H : ℚ)) / (availSpec H : ℚ) * 100)
      ∧ m.available_percentage =
          (if 0 < seconds then (availSpec H : ℚ) / ((seconds : ℚ) * 1000) * 100 else 0)
      ∧ (seconds = 0 → m.available_percentage = 0)
      ∧ m.start_duration_estimate_ms =
          (match get_start_duration_estimate hist eta with
           | .ok ns => some (ns / 1000000)
           | _ => none) := by
  have hHne : metricsHistory hist now (now - seconds * 1000000000) ≠ [] :=
    metricsHistory_ne_nil hist now _ hne
  subst hH
  unfold handle_metrics_core
  rcases hH2 : metricsHistory hist now (now - seconds * 1000000000) with - | ⟨a, t⟩
  · exact absurd hH2 hHne
  · rcases hest2 : get_start_duration_estimate hist eta with - | - | ns
    · refine ⟨_, rfl, ?_⟩
      rw [metricsWalk_eq]
      refine ⟨rfl, rfl, uptimeSpec_le_availSpec _, ?_, ?_, ?_, rfl⟩
      · by_cases hz : availSpec (a :: t) = 0
        · simp [hz]
        · have hpos : 0 < availSpec (a :: t) := Nat.pos_of_ne_zero hz
          have hle := uptimeSpec_le_availSpec (a :: t)
          rw [if_pos hpos, if_neg hz, Nat.cast_sub hle]
      · rfl
      · intro hs0
        subst hs0
        simp
    · exact absurd hest2 hest
    · refine ⟨_, rfl, ?_⟩
      rw [metricsWalk_eq]
      refine ⟨rfl, rfl, uptimeSpec_le_availSpec _, ?_, ?_, ?_, rfl⟩
      · by_cases hz : availSpec (a :: t) = 0
        · simp [hz]
        · have hpos : 0 < availSpec (a :: t) := Nat.pos_of_ne_zero hz
          have hle := uptimeSpec_le_availSpec (a :: t)
          rw [if_pos hpos, if_neg hz, Nat.cast_sub hle]
      · rfl
      · intro hs0
        subst hs0
        simp

/-- Witness for C6 at a concrete input: one `Down` row at time 0,
`now = 1 s` (in ns), `seconds = 1`: the metrics request succeeds. -/
theorem C6_witness :
    (handle_metrics_core [(0, SiteState.Down)] 1000000000 1 95).isSome = true := by
  obtain ⟨m, hm, -⟩ :=
    C6_metrics_correct [(0, SiteState.Down)] 1000000000 1 95
      (metricsHistory [(0, SiteState.Down)] 1000000000 (1000000000 - 1 * 1000000000)) rfl
      (by decide) (by decide)
  rw [hm]
  rfl

/-- A list is pairwise related by any relation that holds everywhere. -/
theorem pairwise_of_all {α : Type} (l : List α) (R : α → α → Prop)
    (h : ∀ a b, R a b) : l.Pairwise R := by
  induction l with
  | nil => constructor
  | cons x xs ih => exact List.Pairwise.cons (fun b _ => h x b) ih

/-- Every record emitted by the accumulation loop survives the service
filter (given the starting accumulator does). -/
theorem collectGroups_keep (svc : Option String) (min_results : Nat) :
    ∀ (gs : List (Nat × List ConnectionMetadata)) (acc : List (Nat × ConnectionMetadata)),
      (∀ e ∈ acc, keepMeta svc e.2 = true) →
      ∀ e ∈ collectGroups svc min_results acc gs, keepMeta svc e.2 = true := by
  intro gs
  induction gs with
  | nil =>
    intro acc hacc e he
    exact hacc e he
  | cons g rest ih =>
    intro acc hacc e he
    rcases g with ⟨t, metas⟩
    have hacc2 : ∀ e ∈ acc ++ (metas.filter (keepMeta svc)).map (fun m => (t, m)),
        keepMeta svc e.2 = true := by
      intro x hx
      rcases List.mem_append.mp hx with hx | hx
      · exact hacc x hx
      · obtain ⟨m, hm, hxm⟩ := List.mem_map.mp hx
        rw [← hxm]
        exact (List.mem_filter.mp hm).2
    unfold collectGroups at he
    by_cases hstop :
        min_results ≤ (acc ++ (metas.filter (keepMeta svc)).map (fun m => (t, m))).length
    · rw [if_pos hstop] at he
      exact hacc2 e he
    · rw [if_neg hstop] at he
      exact ih _ hacc2 e he

/-- The accumulation loop stops at the first group where the count reaches
`min_results`, so the result exceeds `min_results - 1` by at most the size of
one filtered group. -/
theorem collectGroups_length (svc : Option String) (min_results L : Nat) :
    ∀ (gs : List (Nat × List ConnectionMetadata)) (acc : List (Nat × ConnectionMetadata)),
      acc.length < min_results →
      (∀ g ∈ gs, (g.2.filter (keepMeta svc)).length ≤ L) →
      (collectGroups svc min_results acc gs).length ≤ (min_results - 1) + L := by
  intro gs
  induction gs with
  | nil =>
    intro acc hacc _hL
    unfold collectGroups
    omega
  | cons g rest ih =>
    intro acc hacc hL
    rcases g with ⟨t, metas⟩
    have hgL : (metas.filter (keepMeta svc)).length ≤ L :=
      hL (t, metas) (List.mem_cons_self _ _)
    have hlen : (acc ++ (metas.filter (keepMeta svc)).map (fun m => (t, m))).length
        = acc.length + (metas.filter (keepMeta svc)).length := by
      simp
    unfold collectGroups
    by_cases hstop :
        min_results ≤ (acc ++ (metas.filter (keepMeta svc)).map (fun m => (t, m))).length
    · rw [if_pos hstop]
      omega
    · rw [if_neg hstop]
      exact ih _ (by omega) (fun g hg => hL g (List.mem_cons_of_mem _ hg))

/-- The accumulation loop preserves a key ordering: if the accumulator is
ordered by `r` on keys, the groups are ordered by `r` on keys, every
accumulator key is `r`-related to every group key, and `r` is reflexive, then
the emitted list is ordered by `r` on keys. -/
theorem collectGroups_pairwise (svc : Option String) (min_results : Nat)
    (r : Nat → Nat → Prop) (hrefl : ∀ n, r n n) :
    ∀ (gs : List (Nat × List ConnectionMetadata)) (acc : List (Nat × ConnectionMetadata)),
      acc.Pairwise (fun x y => r x.1 y.1) →
      gs.Pairwise (fun g h => r g.1 h.1) →
      (∀ x ∈ acc, ∀ g ∈ gs, r x.1 g.1) →
      (collectGroups svc min_results acc gs).Pairwise (fun x y => r x.1 y.1) := by
  intro gs
  induction gs with
  | nil =>
    intro acc hacc _hgs _hcross
    exact hacc
  | cons g rest ih =>
    intro acc hacc hgs hcross
    rcases g with ⟨t, metas⟩
    have hgroup : ((metas.filter (keepMeta svc)).map (fun m => (t, m))).Pairwise
        (fun x y => r x.1 y.1) := by
      rw [List.pairwise_map]
      exact pairwise_of_all _ _ (fun a b => hrefl t)
    have hacc2 : (acc ++ (metas.filter (keepMeta svc)).map (fun m => (t, m))).Pairwise
        (fun x y => r x.1 y.1) := by
      rw [List.pairwise_append]
      refine ⟨hacc, hgroup, ?_⟩
      intro x hx y hy
      obtain ⟨m, _hm, hym⟩ := List.mem_map.mp hy
      rw [← hym]
      exact hcross x hx (t, metas) (List.mem_cons_self _ _)
    unfold collectGroups
    by_cases hstop :
        min_results ≤ (acc ++ (metas.filter (keepMeta svc)).map (fun m => (t, m))).length
    · rw [if_pos hstop]
      exact hacc2
    · rw [if_neg hstop]
      refine ih _ hacc2 (List.pairwise_cons.mp hgs).2 ?_
      intro x hx g' hg'
      rcases List.mem_append.mp hx with hx | hx
      · exact hcross x hx g' (List.mem_cons_of_mem _ hg')
      · obtain ⟨m, _hm, hxm⟩ := List.mem_map.mp hx
        rw [← hxm]
        exact (List.pairwise_cons.mp hgs).1 g' hg'

/-- C7: the claim says at most `min` entries are returned.  The loop checks
the count only after pushing a whole timestamp group: with two records stored
at the same second and `min = 1`, the query returns 2 entries. -/
theorem C7_counterexample :
    get_connection_history [(5, [mEmpty, mEmpty])] none (some 10) none 1
      = .ok [(5, mEmpty), (5, mEmpty)]
    ∧ ¬ ([(5, mEmpty), (5, mEmpty)] : List (Nat × ConnectionMetadata)).length ≤ 1 :=
  ⟨rfl, by decide⟩

/-- C7 (amended): `GetConnectionHistory` fails with the invalid-query error
when neither or both of `before`/`after` are set; otherwise the entries are
returned newest-first (non-increasing timestamps, the `after` branch iterating
oldest-first internally and reversing before returning), every returned record
passes the service filter, and the count stops at whole-timestamp-group
granularity: it never exceeds `min - 1` plus the size of one filtered group
(so it can exceed `min`, but only by the last group). -/
theorem C7_history_correct (table : ConnTable) (svc : Option String)
    (before after : Option Nat) (min_results : Nat)
    (hsort : table.Pairwise (fun g h => g.1 < h.1))
    (hmin : 0 < min_results) :
    (before = none → after = none →
      get_connection_history table svc before after min_results
        = .error "Must specify either before or after, but not both")
    ∧ (∀ b a, before = some b → after = some a →
      get_connection_history table svc before after min_results
        = .error "Must specify either before or after, but not both")
    ∧ (∀ b es, before = some b → after = none →
        get_connection_history table svc before after min_results = .ok es →
        es.Pairwise (fun x y => y.1 ≤ x.1)
        ∧ (∀ e ∈ es, keepMeta svc e.2 = true)
        ∧ ∀ L, (∀ g ∈ table, (g.2.filter (keepMeta svc)).length ≤ L) →
            es.length ≤ (min_results - 1) + L)
    ∧ (∀ a es, after = some a → before = none →
        get_connection_history table svc before after min_results = .ok es →
        es.Pairwise (fun x y => y.1 ≤ x.1)
        ∧ (∀ e ∈ es, keepMeta svc e.2 = true)
        ∧ ∀ L, (∀ g ∈ table, (g.2.filter (keepMeta svc)).length ≤ L) →
            es.length ≤ (min_results - 1) + L) := by
  refine ⟨?_, ?_, ?_, ?_⟩
  · intro hb ha
    subst hb
    subst ha
    rfl
  · intro b a hb ha
    subst hb
    subst ha
    rfl
  · intro b es hb ha hok
    subst hb
    subst ha
    unfold get_connection_history at hok
    injection hok with hok
    subst hok
    have h1 : (table.filter (fun g => decide (g.1 < b))).Pairwise (fun g h => g.1 < h.1) :=
      hsort.filter _
    have h2 : ((table.filter (fun g => decide (g.1 < b))).reverse).Pairwise
        (fun x y => y.1 ≤ x.1) :=
      List.pairwise_reverse.mpr (h1.imp (fun h => le_of_lt h))
    refine ⟨?_, ?_, ?_⟩
    · exact collectGroups_pairwise svc min_results (fun x y => y ≤ x)
        (fun n => le_refl n) _ [] (by simp) h2 (by simp)
    · exact collectGroups_keep svc min_results _ [] (by simp)
    · intro L hL
      refine collectGroups_length svc min_results L _ [] (by simpa using hmin) ?_
      intro g hg
      exact hL g (List.mem_filter.mp (List.mem_reverse.mp hg)).1
  · intro a es ha hb hok
    subst hb
    subst ha
    unfold get_connection_history at hok
    injection hok with hok
    subst hok
    have h1 : (table.filter (fun g => decide (a + 1 ≤ g.1))).Pairwise
        (fun g h => g.1 < h.1) :=
      hsort.filter _
    have hin : (collectGroups svc min_results []
        (table.filter (fun g => decide (a + 1 ≤ g.1)))).Pairwise
        (fun x y => x.1 ≤ y.1) :=
      collectGroups_pairwise svc min_results (fun x y => x ≤ y)
        (fun n => le_refl n) _ [] (by simp)
        (h1.imp (fun h => le_of_lt h)) (by simp)
    refine ⟨?_, ?_, ?_⟩
    · exact List.pairwise_reverse.mpr hin
    · intro e he
      exact collectGroups_keep svc min_results _ [] (by simp) e (List.mem_reverse.mp he)
    · intro L hL
      rw [List.length_reverse]
      refine collectGroups_length svc min_results L _ [] (by simpa using hmin) ?_
      intro g hg
      exact hL g (List.mem_filter.mp hg).1

/-- Witness for C7 at a concrete input: two singleton groups at seconds 1 and
3, `before = 10`, `min = 1`: the returned entry passes the (empty) filter and
the group-granular bound gives at most one entry. -/
theorem C7_witness :
    keepMeta none mEmpty = true
    ∧ ([((3 : Nat), mEmpty)] : List (Nat × ConnectionMetadata)).length ≤ (1 - 1) + 1 := by
  have h := (C7_history_correct [(1, [mEmpty]), (3, [mEmpty])] none (some 10) none 1
      (by simp) (by decide)).2.2.1 10 [(3, mEmpty)] rfl rfl rfl
  exact ⟨h.2.1 (3, mEmpty) (by simp), h.2.2 1 (by decide)⟩

end Hibernator
